import Mathlib

/-!
Verification of the LinkedIn OAuth token lifecycle and publish orchestrator of
the cloud-socials service, as a shallow embedding of the TypeScript sources.

The key/value persistence (Deno.Kv) is modelled as a record of the three keys
the LinkedIn integration uses (accessToken, refreshToken, and the nonce
namespace), each entry carrying an optional absolute expiry instant; `kvGet`
returns a value only while it is unexpired, matching Deno KV `expireIn`
semantics.  Network calls are modelled as oracle functions passed explicitly.
JavaScript truthiness on nullable strings is modelled by `truthy`.
-/

deriving instance DecidableEq for Except

namespace CloudSocials

/-- JS truthiness of a nullable string: `null`/`undefined` and `""` are falsy. -/
def truthy : Option String → Bool
  | none => false
  | some s => !(s == "")

/-- One stored KV value: the raw string plus its optional absolute expiry. -/
abbrev KvEntry := String × Option Nat

/-- The LinkedIn slice of the Deno.Kv store: keys `[linkedin, accessToken]`,
`[linkedin, refreshToken]` and the `[linkedin, nonces, *]` family. -/
structure Kv where
  accessToken : Option KvEntry
  refreshToken : Option KvEntry
  nonces : List (String × KvEntry)
  deriving Repr, DecidableEq

/-- The empty store. -/
def Kv.empty : Kv := ⟨none, none, []⟩

/-- Deno KV read at instant `now`: an entry is returned only while unexpired. -/
def kvGet (now : Nat) : Option KvEntry → Option String
  | none => none
  | some (v, none) => some v
  | some (v, some e) => if now < e then some v else none

/-- Read of the nonce key `[linkedin, nonces, key]` at instant `now`. -/
def noncesGet (now : Nat) (st : Kv) (key : String) : Option String :=
  match st.nonces.find? (fun p => p.1 == key) with
  | none => none
  | some (_, ent) => kvGet now (some ent)

/-- Write of a nonce key (Deno KV `set` overwrites an existing key). -/
def noncesSet (st : Kv) (key value : String) (expireAt : Option Nat) : Kv :=
  { st with nonces := (key, (value, expireAt)) :: st.nonces.filter (fun p => !(p.1 == key)) }

/-- The parsed OAuth token response (`accessTokenResponseSchema`), after the
zod transform has scaled `expires_in` / `refresh_token_expires_in` to ms. -/
structure TokenResp where
  access_token : String
  expires_in : Nat
  refresh_token : Option String
  refresh_token_expires_in : Option Nat
  deriving Repr, DecidableEq

/-- `LinkedInController.setTokens` / `LinkedinClient.saveAccessToken`: always
overwrite the access-token key (TTL `expires_in`); write the refresh-token key
only when the response carries a truthy `refresh_token`. -/
def setTokens (now : Nat) (d : TokenResp) (st : Kv) : Kv :=
  let st1 : Kv := { st with accessToken := some (d.access_token, some (now + d.expires_in)) }
  let newRefresh : Option KvEntry :=
    some (d.refresh_token.getD "", d.refresh_token_expires_in.map (fun e => now + e))
  if truthy d.refresh_token then { st1 with refreshToken := newRefresh }
  else st1

/-- `clearTokens`: delete both token keys (nonces are untouched). -/
def clearTokens (st : Kv) : Kv := { st with accessToken := none, refreshToken := none }

/-- The error taxonomy surfaced by token validation. -/
inductive TokenErr where
  | expiredToken (msg : String)
  | wrongToken (msg : Option String)
  deriving Repr, DecidableEq

/-- Outcome of one `getAccessToken` run: the returned token or error, the store
it left behind, and how many refresh calls were issued. -/
structure GetTokenOut where
  result : Except TokenErr String
  store : Kv
  refreshes : Nat
  deriving Repr, DecidableEq

/-- `LinkedInController.getAccessToken` (the spec's `ensureValidToken`).
`refreshFn` is the `client.refreshAccessToken` oracle (`none` = refresh
failed).  The TS method recurses on itself after a successful refresh; the
`fuel` argument makes that recursion structural, `none` meaning the run did
not terminate within `fuel` unfoldings. -/
def getAccessToken (refreshFn : String → Option TokenResp) (now : Nat) :
    Nat → Kv → Option GetTokenOut
  | 0, _ => none
  | fuel + 1, st =>
    let access := kvGet now st.accessToken
    let refreshv := kvGet now st.refreshToken
    if truthy access then some ⟨.ok (access.getD ""), st, 0⟩
    else if !(truthy refreshv) then
      some ⟨.error (.expiredToken "Access token is expired and no refresh token was found"), st, 0⟩
    else
      match refreshFn (refreshv.getD "") with
      | none => some ⟨.error (.expiredToken "Refresh token is expired"), clearTokens st, 1⟩
      | some d =>
        match getAccessToken refreshFn now fuel (setTokens now d st) with
        | none => none
        | some out => some { out with refreshes := out.refreshes + 1 }

/-- `LinkedInController.validateAccessToken`.  `profileFn` is the
`client.getTokenUserProfile` oracle: `none` for a non-2xx profile fetch,
`some idField` for a 2xx body whose `id` field is `idField`. -/
def validateAccessToken (refreshFn : String → Option TokenResp)
    (profileFn : String → Option (Option String)) (allowedUserId : String)
    (now fuel : Nat) (st : Kv) : Option (Except TokenErr Unit × Kv) :=
  match getAccessToken refreshFn now fuel st with
  | none => none
  | some out =>
    match out.result with
    | .error e => some (.error e, out.store)
    | .ok tok =>
      match profileFn tok with
      | none => some (.error (.wrongToken (some "Could not get user profile from Linkedin")), out.store)
      | some idField =>
        if !(truthy idField) || !(idField == some allowedUserId) then
          some (.error (.wrongToken none), clearTokens out.store)
        else some (.ok (), out.store)

/-- `matchState` / `validateNonce`: true iff the nonce key named by `state`
holds a stored, unexpired, truthy value equal to `state`. -/
def matchState (state : String) (now : Nat) (st : Kv) : Bool :=
  match noncesGet now st state with
  | none => false
  | some v => !(v == "") && v == state

/-- Result of `loginUrl`: the authorization URL's query parameters and the
store after the nonce write. -/
structure LoginUrlOut where
  params : List (String × String)
  store : Kv
  deriving Repr, DecidableEq

/-- `LinkedinClient.loginUrl`: builds the authorization URL with
`state = nonce` and persists the nonce under `[linkedin, nonces, nonce]` with
`expireIn: 60000`.  The randomly generated nonce is a parameter. -/
def loginUrl (clientId redirectUri nonce : String) (now : Nat) (st : Kv) : LoginUrlOut :=
  { params :=
      [("response_type", "code"),
       ("client_id", clientId),
       ("redirect_uri", redirectUri),
       ("state", nonce),
       ("scope", "r_emailaddress w_member_social r_basicprofile w_organization_social rw_ads r_organization_social")],
    store := noncesSet st nonce nonce (some (now + 60000)) }

/-- Query parameters of an OAuth callback request (`params.get` results). -/
structure CallbackParams where
  error : Option String
  code : Option String
  state : Option String
  deriving Repr, DecidableEq

/-- Outcome of a callback handler: thrown HTTP error status, or 2xx body. -/
abbrev CallbackResult := Except Nat Unit

/-- `linkedin.get('/oauth/callback')` in `networks/linkedin.ts`.  `exchange`
abstracts `controller.exchangeAccessToken(code, state)` (error = the HTTP
status its thrown error maps to).  The second component records whether the
token-exchange call was issued.  Note: the handler never consults the nonce
store, so it takes no store argument. -/
def linkedinOauthCallback (exchange : String → String → CallbackResult)
    (p : CallbackParams) : CallbackResult × Bool :=
  if p.error.isSome then (Except.error 400, false)
  else if !(truthy p.code) || !(truthy p.state) then (Except.error 422, false)
  else (exchange (p.code.getD "") (p.state.getD ""), true)

/-- `twitter.get('/oauth/callback')` (part of the same router family): checks
`client.matchState(state)` against the nonce store and answers 401 before any
exchange when it fails. -/
def twitterOauthCallback (exchange : String → String → CallbackResult)
    (now : Nat) (st : Kv) (p : CallbackParams) : CallbackResult × Bool :=
  if p.error.isSome then (Except.error 400, false)
  else if !(truthy p.code) || !(truthy p.state) then (Except.error 422, false)
  else if !(matchState (p.state.getD "") now st) then (Except.error 401, false)
  else (exchange (p.code.getD "") (p.state.getD ""), true)

/-- The publish/upload failure error (`FailedToShareError`). -/
inductive ShareErr where
  | failedToShare
  deriving Repr, DecidableEq

/-- One HTTP response to a comment POST: status code and the `commentUrn`
field of its JSON body. -/
structure CommentResp where
  status : Nat
  commentUrn : String
  deriving Repr, DecidableEq

/-- `response.ok`: status in the range 200..299. -/
def respOk (status : Nat) : Bool := 200 ≤ status && status < 300

/-- Trace of one retry loop run: final result, number of HTTP attempts made,
and the backoff delays (ms) slept between attempts, in order. -/
structure RetryRun (α : Type) where
  result : Except ShareErr α
  attempts : Nat
  delays : List Nat
  deriving Repr, DecidableEq

/-- `LinkedinClient.postComment` (retrying variant): on a 404 with retries
left, sleeps `500 * retries + 1` ms and recurses with `retries - 1`; any other
non-2xx fails immediately with `FailedToShareError`; a 2xx returns the
comment URN.  `resp` maps the attempt index to that attempt's response. -/
def postCommentRun (resp : Nat → CommentResp) : Nat → Nat → RetryRun String
  | attempt, 0 =>
    if respOk (resp attempt).status then ⟨Except.ok (resp attempt).commentUrn, 1, []⟩
    else ⟨Except.error ShareErr.failedToShare, 1, []⟩
  | attempt, rr + 1 =>
    if (resp attempt).status == 404 then
      let rest := postCommentRun resp (attempt + 1) rr
      ⟨rest.result, rest.attempts + 1, (500 * (rr + 1) + 1) :: rest.delays⟩
    else if respOk (resp attempt).status then ⟨Except.ok (resp attempt).commentUrn, 1, []⟩
    else ⟨Except.error ShareErr.failedToShare, 1, []⟩

/-- `LinkedinClient.finalizeVideoUpload`: on a non-2xx response, if no retries
remain it fails with `FailedToShareError`, otherwise it sleeps
`500 * retries + 1` ms and recurses with `retries - 1`; a 2xx returns success.
`resp` maps the attempt index to whether that attempt's response was ok. -/
def finalizeVideoUploadRun (resp : Nat → Bool) : Nat → Nat → RetryRun Unit
  | attempt, 0 =>
    if resp attempt then ⟨Except.ok (), 1, []⟩
    else ⟨Except.error ShareErr.failedToShare, 1, []⟩
  | attempt, rr + 1 =>
    if resp attempt then ⟨Except.ok (), 1, []⟩
    else
      let rest := finalizeVideoUploadRun resp (attempt + 1) rr
      ⟨rest.result, rest.attempts + 1, (500 * (rr + 1) + 1) :: rest.delays⟩

/-- One entry of the server-provided video chunk plan
(`uploadInstructions`). -/
structure ChunkInstr where
  uploadUrl : String
  firstByte : Nat
  lastByte : Nat
  deriving Repr, DecidableEq

/-- The byte range PUT for chunk `c` (`blob.slice(firstByte, lastByte + 1)`
when there is more than one chunk, the whole blob otherwise). -/
def chunkRange (planLength blobSize : Nat) (c : ChunkInstr) : Nat × Nat :=
  if 1 < planLength then (min c.firstByte blobSize, min (c.lastByte + 1) blobSize)
  else (0, blobSize)

/-- The PUT requests `uploadVideo` issues, one per chunk-plan entry, in plan
order (the loop pushes one `fetch` per entry before awaiting any). -/
def uploadVideoPuts (urlArray : List ChunkInstr) (blobSize : Nat) :
    List (String × Nat × Nat) :=
  urlArray.map (fun c => (c.uploadUrl, chunkRange urlArray.length blobSize c))

/-- Completion events of the parallel chunk PUTs: the chunk indices in the
order their responses arrive, paired with the `ETag` header of each response
(`etags i` is the header of chunk `i`; `none` models a missing header). -/
def completionEvents (etags : Nat → Option String) (order : List Nat) :
    List (Nat × Option String) :=
  order.map (fun i => (i, etags i))

/-- `Promise.all` semantics: regardless of arrival order, the resolved array
holds each task's result at the task's original index. -/
def promiseAllResults (n : Nat) (events : List (Nat × Option String)) :
    List (Option String) :=
  (List.range n).map (fun i => ((events.find? (fun p => p.1 == i)).map Prod.snd).getD none)

/-- The ETag list `uploadVideo` collects and hands to
`finalizeVideoUpload` (`responses.map((res) => res.headers.get('etag'))`). -/
def uploadVideoETags (urlArray : List ChunkInstr) (etags : Nat → Option String)
    (order : List Nat) : List (Option String) :=
  promiseAllResults urlArray.length (completionEvents etags order)

/-- The finalize request body built by `uploadVideo`
(`finalizeUploadRequest`). -/
structure FinalizeRequest where
  uploadToken : String
  video : String
  uploadedPartIds : List (Option String)
  deriving Repr, DecidableEq

/-- `uploadVideo`: PUTs every chunk, collects ETags via `Promise.all`, and
calls `finalizeVideoUpload` with them. -/
def uploadVideoFinalizeRequest (urlArray : List ChunkInstr)
    (etags : Nat → Option String) (order : List Nat)
    (videoUrn uploadToken : String) : FinalizeRequest :=
  ⟨uploadToken, videoUrn, uploadVideoETags urlArray etags order⟩

/-- The three enrichable article properties. -/
inductive PropName where
  | title
  | thumbnail
  | description
  deriving Repr, DecidableEq

/-- A parsed DOM element: its attributes and its text content. -/
structure DomElement where
  attrs : List (String × String)
  textContent : Option String
  deriving Repr, DecidableEq

/-- `Element.getAttribute(name)`: the attribute value or `null`. -/
def getAttribute (el : DomElement) (name : String) : Option String :=
  (el.attrs.find? (fun p => p.1 == name)).map Prod.snd

/-- How a meta-tag entry extracts its value from a matched element. -/
inductive TagValue where
  | attrContent
  | text
  deriving Repr, DecidableEq

/-- Evaluation of a `SOCIAL_CARD_META_TAGS` `value` function on an element. -/
def tagValue : TagValue → DomElement → Option String
  | .attrContent, el => getAttribute el "content"
  | .text, el => el.textContent

/-- One entry of `SOCIAL_CARD_META_TAGS`. -/
structure MetaTag where
  selector : String
  name : PropName
  priority : Nat
  value : TagValue
  deriving Repr, DecidableEq

/-- The `SOCIAL_CARD_META_TAGS` array literal, in source order, before the
module-level `.sort((a, b) => a.priority - b.priority)` runs. -/
def socialCardMetaTagsUnsorted : List MetaTag :=
  [⟨"meta[property=\"og:title\"]", .title, 2, .attrContent⟩,
   ⟨"meta[property=\"og:description\"]", .description, 2, .attrContent⟩,
   ⟨"meta[property=\"og:image\"]", .thumbnail, 2, .attrContent⟩,
   ⟨"meta[name=\"twitter:title\"]", .title, 1, .attrContent⟩,
   ⟨"meta[name=\"twitter:description\"]", .description, 1, .attrContent⟩,
   ⟨"meta[name=\"twitter:image\"]", .thumbnail, 1, .attrContent⟩,
   ⟨"title", .title, 3, .text⟩]

/-- Stable insertion of a tag into an already-sorted list: it lands before the
first element of strictly larger priority, after earlier equal-priority ones
processed later (matching stable `Array.prototype.sort`). -/
def insertTag (x : MetaTag) : List MetaTag → List MetaTag
  | [] => [x]
  | y :: ys => if y.priority < x.priority then y :: insertTag x ys else x :: y :: ys

/-- Stable sort by ascending `priority` (ES2019+ `Array.prototype.sort` is
stable). -/
def sortTags : List MetaTag → List MetaTag
  | [] => []
  | x :: xs => insertTag x (sortTags xs)

/-- `SOCIAL_CARD_META_TAGS` as the rest of the program sees it: the literal
sorted ascending by priority. -/
def socialCardMetaTags : List MetaTag := sortTags socialCardMetaTagsUnsorted

/-- An article media object (`LinkedinMediaArticleInput`), type tag omitted. -/
structure Article where
  source : String
  title : Option String
  thumbnail : Option String
  description : Option String
  deriving Repr, DecidableEq

/-- Read of `article[property]`. -/
def Article.get : Article → PropName → Option String
  | a, .title => a.title
  | a, .thumbnail => a.thumbnail
  | a, .description => a.description

/-- Write of `article[property] = v`. -/
def Article.set : Article → PropName → Option String → Article
  | a, .title, v => { a with title := v }
  | a, .thumbnail, v => { a with thumbnail := v }
  | a, .description, v => { a with description := v }

/-- A parsed document: `querySelector` as a partial map from CSS selectors to
elements. -/
abbrev Doc := String → Option DomElement

/-- First tag of `tags` whose selector matches in `doc`, with its element. -/
def firstMatch (doc : Doc) : List MetaTag → Option (MetaTag × DomElement)
  | [] => none
  | t :: ts =>
    match doc t.selector with
    | some el => some (t, el)
    | none => firstMatch doc ts

/-- The candidate tags for one property:
`SOCIAL_CARD_META_TAGS.filter(({name}) => name === property)`. -/
def candidatesFor (p : PropName) : List MetaTag :=
  socialCardMetaTags.filter (fun t => t.name == p)

/-- The body of the per-property enrichment loop in
`LinkedInController.enrichArticle`: on the first matching selector it computes
`value(el) ?? article[property]`, but assigns the property only in the
thumbnail branch (replacing it with the uploaded image URN `urn`). -/
def enrichStepController (urn : String) (doc : Doc) (article : Article)
    (p : PropName) : Article :=
  if truthy (article.get p) then article
  else
    match firstMatch doc (candidatesFor p) with
    | none => article
    | some (tag, el) =>
      let v := (tagValue tag.value el).orElse (fun _ => article.get p)
      if p == PropName.thumbnail && truthy v then article.set p (some urn)
      else article

/-- `LinkedInController.enrichArticle`: no-op when title and thumbnail are
both present, or when the fetch/parse failed (`doc? = none`); otherwise runs
the property loop over title, thumbnail, description in that order.  `urn` is
the URN the thumbnail upload returns. -/
def enrichArticleController (urn : String) (doc? : Option Doc) (media : Article) : Article :=
  if truthy media.thumbnail && truthy media.title then media
  else
    match doc? with
    | none => media
    | some doc =>
      [PropName.title, PropName.thumbnail, PropName.description].foldl
        (enrichStepController urn doc) media

/-- The per-property loop body of `LinkedinClient.enrichArticle`
(`clients/Linkedin.ts`): same selector walk, but it assigns
`article[property] = validatedProperty` for every property, uploading the
thumbnail first (`urnOf` maps the scraped thumbnail URL to the uploaded image
URN). -/
def enrichStepClient (urnOf : String → String) (doc : Doc) (article : Article)
    (p : PropName) : Article :=
  if truthy (article.get p) then article
  else
    match firstMatch doc (candidatesFor p) with
    | none => article
    | some (tag, el) =>
      let v := (tagValue tag.value el).orElse (fun _ => article.get p)
      let v2 := if p == PropName.thumbnail && truthy v then some (urnOf (v.getD "")) else v
      article.set p v2

/-- `LinkedinClient.enrichArticle` (`clients/Linkedin.ts`). -/
def enrichArticleClient (urnOf : String → String) (doc? : Option Doc) (media : Article) : Article :=
  if truthy media.thumbnail && truthy media.title then media
  else
    match doc? with
    | none => media
    | some doc =>
      [PropName.title, PropName.thumbnail, PropName.description].foldl
        (enrichStepClient urnOf doc) media

/-- The asset media kinds (`LinkedinMediaTypes` minus `article`). -/
inductive AssetType where
  | image
  | document
  | video
  deriving Repr, DecidableEq

/-- The `media` field of a `LinkedinPost`: an article, or an uploaded asset
reference set by `addMedia(type, title, id)`. -/
inductive PostMedia where
  | article (a : Article)
  | asset (type : AssetType) (title : String) (id : String)
  deriving Repr, DecidableEq

/-- The `LinkedinPost` domain object. -/
structure LinkedinPost where
  text : String
  author : String
  media : Option PostMedia
  deriving Repr, DecidableEq

/-- `new LinkedinPost(text, author)`. -/
def LinkedinPost.mk0 (text author : String) : LinkedinPost := ⟨text, author, none⟩

/-- `post.addArticle(data)`. -/
def LinkedinPost.addArticle (p : LinkedinPost) (a : Article) : LinkedinPost :=
  { p with media := some (.article a) }

/-- `post.addMedia(type, title, id)`. -/
def LinkedinPost.addMedia (p : LinkedinPost) (t : AssetType) (title id : String) : LinkedinPost :=
  { p with media := some (.asset t title id) }

/-- The `content` block of a publish payload.  For an article, `none` in an
optional field models the JSON key being absent. -/
inductive PayloadContent where
  | article (source : String) (title : Option String) (description : Option String)
      (thumbnail : Option String)
  | media (id : String) (title : String)
  deriving Repr, DecidableEq

/-- The publish payload (`LinkedinPost.payload`): the fixed envelope plus the
optional `content` block (`none` = no `content` key). -/
structure Payload where
  author : String
  visibility : String
  feedDistribution : String
  commentary : String
  lifecycleState : String
  isReshareDisabledByAuthor : Bool
  content : Option PayloadContent
  deriving Repr, DecidableEq

/-- `LinkedinPost.#parseMedia`: the media-shaped part of the payload.
`...(x && { k: x })` spreads the key only when `x` is truthy. -/
def parseMedia : Option PostMedia → Option PayloadContent
  | none => none
  | some (.article a) =>
    some (.article a.source a.title
      (if truthy a.description then a.description else none)
      (if truthy a.thumbnail then a.thumbnail else none))
  | some (.asset _ title id) => some (.media id title)

/-- `LinkedinPost.payload`. -/
def LinkedinPost.payload (p : LinkedinPost) : Payload :=
  { author := p.author
    visibility := "PUBLIC"
    feedDistribution := "MAIN_FEED"
    commentary := p.text
    lifecycleState := "PUBLISHED"
    isReshareDisabledByAuthor := false
    content := parseMedia p.media }

/-- A document whose only matching selectors are the Twitter-card title meta
tag (content `Hello`) and the `<title>` element (text `Page`); in particular
it has no Open Graph tags. -/
def docTwitterTitle : Doc := fun s =>
  if s == "meta[name=\"twitter:title\"]" then some ⟨[("content", "Hello")], none⟩
  else if s == "title" then some ⟨[], some "Page"⟩
  else none

/-- An article with only a source, all enrichable properties missing. -/
def articleBare : Article := ⟨"https://example.com/a", none, none, none⟩

/-- The delay schedule of a run that fails `r` consecutive times starting
with `retries = r`: `500 * remaining + 1` for `remaining = r, r-1, ..., 1`. -/
def linearBackoffDelays : Nat → List Nat
  | 0 => []
  | rr + 1 => (500 * (rr + 1) + 1) :: linearBackoffDelays rr

/-- Whether a list of delays is strictly increasing. -/
def strictlyIncreasingB : List Nat → Bool
  | [] => true
  | [_] => true
  | a :: b :: rest => decide (a < b) && strictlyIncreasingB (b :: rest)

/-- Whether a list of delays is strictly decreasing. -/
def strictlyDecreasingB : List Nat → Bool
  | [] => true
  | [_] => true
  | a :: b :: rest => decide (b < a) && strictlyDecreasingB (b :: rest)

/-- Truthiness check of a raw stored entry (`""` is the only falsy string). -/
def entryOkB : Option KvEntry → Bool
  | none => true
  | some (v, _) => !(v == "")

/-- A store holding no empty-string token values (every value the OAuth flows
store comes from a provider token response, which is non-empty). -/
def wellFormedKv (st : Kv) : Bool :=
  entryOkB st.accessToken && entryOkB st.refreshToken

/-- A refresh oracle behaving like the provider: every successful refresh
carries a non-empty access token with a positive lifetime. -/
def providerOk (refreshFn : String → Option TokenResp) : Prop :=
  ∀ r d, refreshFn r = some d → d.access_token ≠ "" ∧ 0 < d.expires_in

/-- `LinkedinClient.refreshAccessToken` in the earlier self-contained
`clients/Linkedin.ts` variant: reads the refresh token itself (a falsy read
throws, caught into `false`), refreshes, persists via `saveAccessToken`, and
reports success as a boolean; every failure is swallowed to `false` with the
store untouched. -/
def clientRefreshAccessToken (refreshFn : String → Option TokenResp) (now : Nat)
    (st : Kv) : Bool × Kv :=
  match kvGet now st.refreshToken with
  | none => (false, st)
  | some r =>
    if r == "" then (false, st)
    else
      match refreshFn r with
      | none => (false, st)
      | some d => (true, setTokens now d st)

/-- `LinkedinClient.accessToken` in the earlier `clients/Linkedin.ts`
variant: reads the access-token key once, refreshes when the read is falsy,
throws `ExpiredTokenError` when the refresh fails, and then returns the
original (pre-refresh) read result. -/
def clientAccessToken (refreshFn : String → Option TokenResp) (now : Nat)
    (st : Kv) : Except TokenErr (Option String) × Kv :=
  let v := kvGet now st.accessToken
  if truthy v then (Except.ok v, st)
  else
    match clientRefreshAccessToken refreshFn now st with
    | (false, st2) => (Except.error (TokenErr.expiredToken "Expired token"), st2)
    | (true, st2) => (Except.ok v, st2)

section HelperLemmas

theorem setTokens_accessToken (now : Nat) (d : TokenResp) (st : Kv) :
    (setTokens now d st).accessToken = some (d.access_token, some (now + d.expires_in)) := by
  unfold setTokens
  split <;> rfl

theorem setTokens_nonces (now : Nat) (d : TokenResp) (st : Kv) :
    (setTokens now d st).nonces = st.nonces := by
  unfold setTokens
  split <;> rfl

theorem setTokens_refreshToken_of_falsy (now : Nat) (d : TokenResp) (st : Kv)
    (h : truthy d.refresh_token = false) :
    (setTokens now d st).refreshToken = st.refreshToken := by
  unfold setTokens
  simp [h]

theorem setTokens_refreshToken_of_some (now : Nat) (d : TokenResp) (st : Kv)
    (r : String) (hr : d.refresh_token = some r) (hne : r ≠ "") :
    (setTokens now d st).refreshToken =
      some (r, d.refresh_token_expires_in.map (fun e => now + e)) := by
  have ht : truthy (some r) = true := by simp [truthy, hne]
  unfold setTokens
  simp [hr, ht]

theorem kvGet_eq_none_of_not_truthy (now : Nat) (e : Option KvEntry)
    (hok : entryOkB e = true) (h : truthy (kvGet now e) = false) :
    kvGet now e = none := by
  match e with
  | none => rfl
  | some (v, none) =>
    simp [entryOkB] at hok
    simp [kvGet, truthy, hok] at h
  | some (v, some ex) =>
    simp [entryOkB] at hok
    by_cases hlt : now < ex
    · simp [kvGet, hlt, truthy, hok] at h
    · simp [kvGet, hlt]

end HelperLemmas

/-- C10: `setTokens`/`saveAccessToken` always overwrites the stored access
token with the response's `access_token` (TTL `expires_in`); it writes the
refresh-token key only when the response carries a `refresh_token`, and when
the response has none the previously stored refresh token is left unchanged;
nothing else in the store is touched. -/
theorem setTokens_frame_spec (st : Kv) (now : Nat) (d : TokenResp) :
    (setTokens now d st).accessToken = some (d.access_token, some (now + d.expires_in))
    ∧ (truthy d.refresh_token = false → (setTokens now d st).refreshToken = st.refreshToken)
    ∧ (∀ r, d.refresh_token = some r → r ≠ "" →
        (setTokens now d st).refreshToken =
          some (r, d.refresh_token_expires_in.map (fun e => now + e)))
    ∧ (setTokens now d st).nonces = st.nonces := by
  refine ⟨setTokens_accessToken now d st, ?_, ?_, setTokens_nonces now d st⟩
  · intro h
    exact setTokens_refreshToken_of_falsy now d st h
  · intro r hr hne
    exact setTokens_refreshToken_of_some now d st r hr hne

/-- Witness for C10 at a concrete store and two concrete responses: a
response with no `refresh_token` leaves the old refresh token in place, one
with a `refresh_token` writes it with its own expiry. -/
theorem setTokens_frame_spec_witness :
    (setTokens 7 ⟨"newA", 1000, none, none⟩ ⟨none, some ("oldR", some 99), []⟩).refreshToken
      = some ("oldR", some 99)
    ∧ (setTokens 7 ⟨"newA", 1000, some "newR", some 50⟩ ⟨none, some ("oldR", some 99), []⟩).refreshToken
      = some ("newR", some 57) := by
  refine ⟨(setTokens_frame_spec _ 7 _).2.1 (by decide), ?_⟩
  have h := (setTokens_frame_spec ⟨none, some ("oldR", some 99), []⟩ 7
    ⟨"newA", 1000, some "newR", some 50⟩).2.2.1 "newR" rfl (by decide)
  simpa using h

/-- C9: `LinkedinPost.payload` is the fixed envelope
(author, PUBLIC, MAIN_FEED, commentary, PUBLISHED, reshare enabled) plus a
`content` block shaped by the media kind — an article block whose description
and thumbnail keys appear only when set, a `{media: {id, title}}` block for
image/document/video — and no `content` key at all when no media was added. -/
theorem linkedinPost_payload_spec (text author : String) :
    (LinkedinPost.mk0 text author).payload
        = ⟨author, "PUBLIC", "MAIN_FEED", text, "PUBLISHED", false, none⟩
    ∧ (∀ a : Article, ((LinkedinPost.mk0 text author).addArticle a).payload
        = ⟨author, "PUBLIC", "MAIN_FEED", text, "PUBLISHED", false,
            some (.article a.source a.title
              (if truthy a.description then a.description else none)
              (if truthy a.thumbnail then a.thumbnail else none))⟩)
    ∧ (∀ (t : AssetType) (title id : String),
        ((LinkedinPost.mk0 text author).addMedia t title id).payload
        = ⟨author, "PUBLIC", "MAIN_FEED", text, "PUBLISHED", false, some (.media id title)⟩)
    ∧ (∀ a : Article, a.description = none → a.thumbnail = none →
        ((LinkedinPost.mk0 text author).addArticle a).payload
        = ⟨author, "PUBLIC", "MAIN_FEED", text, "PUBLISHED", false,
            some (.article a.source a.title none none)⟩) := by
  refine ⟨rfl, fun a => rfl, fun t title id => rfl, ?_⟩
  intro a hd ht
  simp [LinkedinPost.payload, LinkedinPost.addArticle, LinkedinPost.mk0, parseMedia, hd, ht, truthy]

/-- Witness for C9 at a concrete text/author/article: an article with a
description but no thumbnail yields a content block with the description key
and no thumbnail key. -/
theorem linkedinPost_payload_spec_witness :
    ((LinkedinPost.mk0 "hi" "urn:li:person:alice").addArticle
        ⟨"https://e.com", some "T", none, some "D"⟩).payload
      = ⟨"urn:li:person:alice", "PUBLIC", "MAIN_FEED", "hi", "PUBLISHED", false,
          some (.article "https://e.com" (some "T") (some "D") none)⟩ := by
  have h := (linkedinPost_payload_spec "hi" "urn:li:person:alice").2.1
    ⟨"https://e.com", some "T", none, some "D"⟩
  simpa using h

/-- C1 (code bug): on `GET /linkedin/oauth/callback` with a `state` that
matches no stored nonce (here: the empty store), the handler still issues the
token-exchange call and answers 200 instead of 401 — it never consults the
nonce store — whereas the pattern-identical Twitter callback answers 401
without issuing the exchange on the same input. -/
theorem linkedin_callback_issues_exchange_without_nonce_check :
    matchState "badstate" 0 Kv.empty = false
    ∧ linkedinOauthCallback (fun _ _ => Except.ok ())
        ⟨none, some "authcode", some "badstate"⟩ = (Except.ok (), true)
    ∧ twitterOauthCallback (fun _ _ => Except.ok ()) 0 Kv.empty
        ⟨none, some "authcode", some "badstate"⟩ = (Except.error 401, false) := by
  refine ⟨rfl, rfl, ?_⟩
  decide

/-- C8 (code bug): enriching an article with a missing title against a
document that has a Twitter-card title meta tag (and no Open Graph tags)
leaves the title unset in `LinkedInController.enrichArticle` — its selector
loop computes the value but only ever assigns the thumbnail property — while
the sibling `LinkedinClient.enrichArticle` assigns the Twitter-card content
as the claim describes. -/
theorem enrichArticle_controller_drops_title :
    enrichArticleController "urn:li:image:1" (some docTwitterTitle) articleBare = articleBare
    ∧ (enrichArticleClient (fun _ => "urn:li:image:1") (some docTwitterTitle) articleBare).title
        = some "Hello" := by
  constructor
  · decide
  · decide

/-- C3: every generated login URL carries `state = nonce`, where the nonce is
persisted in the store with a 60-second TTL at generation time, and
`matchState` answers true for exactly that value before expiry and false
after expiry or for any other value (on a store with no prior nonces). -/
theorem loginUrl_matchState_spec (clientId redirectUri nonce : String) (now : Nat) (st : Kv)
    (hnonce : nonce ≠ "") :
    ("state", nonce) ∈ (loginUrl clientId redirectUri nonce now st).params
    ∧ (loginUrl clientId redirectUri nonce now st).store.nonces.find? (fun p => p.1 == nonce)
        = some (nonce, (nonce, some (now + 60000)))
    ∧ (∀ t, t < now + 60000 →
        matchState nonce t (loginUrl clientId redirectUri nonce now st).store = true)
    ∧ (∀ t, now + 60000 ≤ t →
        matchState nonce t (loginUrl clientId redirectUri nonce now st).store = false)
    ∧ (st.nonces = [] → ∀ s t, s ≠ nonce →
        matchState s t (loginUrl clientId redirectUri nonce now st).store = false) := by
  refine ⟨?_, ?_, ?_, ?_, ?_⟩
  · simp [loginUrl]
  · simp [loginUrl, noncesSet]
  · intro t ht
    simp [loginUrl, matchState, noncesGet, noncesSet, kvGet, ht, hnonce]
  · intro t ht
    simp [loginUrl, matchState, noncesGet, noncesSet, kvGet, Nat.not_lt.mpr ht]
  · intro hempty s t hs
    have hne : (nonce == s) = false := by
      simp [beq_iff_eq]
      exact fun h => hs h.symm
    simp [loginUrl, matchState, noncesGet, noncesSet, hempty, List.find?, hne]

/-- Witness for C3 at a concrete nonce and store: stored with TTL 60000 at
t=100, matched at t=60099, rejected at t=60100 and for another value. -/
theorem loginUrl_matchState_spec_witness :
    ("state", "n0") ∈ (loginUrl "cid" "cb" "n0" 100 Kv.empty).params
    ∧ matchState "n0" 60099 (loginUrl "cid" "cb" "n0" 100 Kv.empty).store = true
    ∧ matchState "n0" 60100 (loginUrl "cid" "cb" "n0" 100 Kv.empty).store = false
    ∧ matchState "other" 5 (loginUrl "cid" "cb" "n0" 100 Kv.empty).store = false := by
  have h := loginUrl_matchState_spec "cid" "cb" "n0" 100 Kv.empty (by decide)
  exact ⟨h.1, h.2.2.1 60099 (by decide), h.2.2.2.1 60100 (by decide),
    h.2.2.2.2 rfl "other" 5 (by decide)⟩

theorem find?_completionEvents (etags : Nat → Option String) :
    ∀ (order : List Nat) (i : Nat), i ∈ order →
      (completionEvents etags order).find? (fun p => p.1 == i) = some (i, etags i) := by
  intro order
  induction order with
  | nil => intro i hi; cases hi
  | cons j rest ih =>
    intro i hi
    by_cases h : j = i
    · subst h
      simp [completionEvents, List.find?]
    · have hmem : i ∈ rest := by
        rcases List.mem_cons.mp hi with h1 | h1
        · exact absurd h1.symm h
        · exact h1
      have hne : (j == i) = false := by simp [beq_iff_eq, h]
      simpa [completionEvents, List.find?, hne] using ih i hmem

theorem promiseAllResults_eq_map (etags : Nat → Option String) (n : Nat)
    (order : List Nat) (hperm : order.Perm (List.range n)) :
    promiseAllResults n (completionEvents etags order) = (List.range n).map etags := by
  unfold promiseAllResults
  apply List.map_congr_left
  intro i hi
  have hmem : i ∈ order := hperm.mem_iff.mpr hi
  rw [find?_completionEvents etags order i hmem]
  rfl

/-- C5: for a chunk plan of `N` entries, `uploadVideo` issues one PUT per
entry in plan order, and the ETag list handed to `finalizeVideoUpload` has
length `N` and lists each chunk's ETag at the chunk's plan position,
regardless of the order in which the parallel uploads complete. -/
theorem uploadVideo_etag_order_spec (urlArray : List ChunkInstr)
    (etags : Nat → Option String) (order : List Nat) (blobSize : Nat)
    (videoUrn uploadToken : String)
    (hperm : order.Perm (List.range urlArray.length)) :
    (uploadVideoFinalizeRequest urlArray etags order videoUrn uploadToken).uploadedPartIds
        = (List.range urlArray.length).map etags
    ∧ (uploadVideoFinalizeRequest urlArray etags order videoUrn uploadToken).uploadedPartIds.length
        = urlArray.length
    ∧ (uploadVideoPuts urlArray blobSize).map Prod.fst = urlArray.map ChunkInstr.uploadUrl
    ∧ (uploadVideoPuts urlArray blobSize).length = urlArray.length := by
  have h1 : (uploadVideoFinalizeRequest urlArray etags order videoUrn uploadToken).uploadedPartIds
      = (List.range urlArray.length).map etags := by
    unfold uploadVideoFinalizeRequest uploadVideoETags
    exact promiseAllResults_eq_map etags urlArray.length order hperm
  refine ⟨h1, ?_, ?_, ?_⟩
  · rw [h1]; simp
  · simp [uploadVideoPuts]
  · simp [uploadVideoPuts]

/-- Witness for C5: three chunks completing in order 2, 0, 1 still deliver
`finalizeUploadRequest.uploadedPartIds` in plan order with length 3. -/
theorem uploadVideo_etag_order_spec_witness :
    (uploadVideoFinalizeRequest [⟨"u0", 0, 3⟩, ⟨"u1", 4, 7⟩, ⟨"u2", 8, 9⟩]
        (fun i => some (Nat.repr i)) [2, 0, 1] "urn:li:video:9" "tok").uploadedPartIds
      = [some "0", some "1", some "2"]
    ∧ (uploadVideoFinalizeRequest [⟨"u0", 0, 3⟩, ⟨"u1", 4, 7⟩, ⟨"u2", 8, 9⟩]
        (fun i => some (Nat.repr i)) [2, 0, 1] "urn:li:video:9" "tok").uploadedPartIds.length
      = 3 := by
  have h := uploadVideo_etag_order_spec [⟨"u0", 0, 3⟩, ⟨"u1", 4, 7⟩, ⟨"u2", 8, 9⟩]
    (fun i => some (Nat.repr i)) [2, 0, 1] 10 "urn:li:video:9" "tok" (by decide)
  exact ⟨by rw [h.1]; rfl, h.2.1⟩

theorem postCommentRun_always404 (resp : Nat → CommentResp)
    (h : ∀ i, (resp i).status = 404) :
    ∀ (retries attempt : Nat),
      postCommentRun resp attempt retries =
        ⟨Except.error ShareErr.failedToShare, retries + 1, linearBackoffDelays retries⟩ := by
  intro retries
  induction retries with
  | zero =>
    intro attempt
    simp [postCommentRun, h attempt, respOk, linearBackoffDelays]
  | succ rr ih =>
    intro attempt
    simp only [postCommentRun, h attempt]
    rw [ih (attempt + 1)]
    simp [linearBackoffDelays]

/-- Counterexample to C6 as stated: a run in which every response is 404
makes all ten retries, but the backoff delays `500 * remainingRetries + 1`
come out strictly decreasing (5001ms first, 501ms last), not strictly
increasing. -/
theorem postComment_delays_not_increasing :
    (postCommentRun (fun _ => ⟨404, ""⟩) 0 10).delays
      = [5001, 4501, 4001, 3501, 3001, 2501, 2001, 1501, 1001, 501]
    ∧ strictlyIncreasingB (postCommentRun (fun _ => ⟨404, ""⟩) 0 10).delays = false := by
  constructor
  · decide
  · decide

/-- C6 (amended): `postComment` retries on HTTP 404 up to 10 times with
strictly decreasing delay (linear backoff `500ms * remainingRetries + 1`),
propagates any non-404 failure immediately without retry as
`FailedToShareError`, and returns the comment URN on a 2xx response. -/
theorem postComment_retry_spec :
    (∀ (resp : Nat → CommentResp) (attempt retries : Nat),
        (postCommentRun resp attempt retries).attempts ≤ retries + 1)
    ∧ (∀ resp : Nat → CommentResp, (∀ i, (resp i).status = 404) →
        postCommentRun resp 0 10 =
          ⟨Except.error ShareErr.failedToShare, 11,
            [5001, 4501, 4001, 3501, 3001, 2501, 2001, 1501, 1001, 501]⟩)
    ∧ strictlyDecreasingB [5001, 4501, 4001, 3501, 3001, 2501, 2001, 1501, 1001, 501] = true
    ∧ (∀ (resp : Nat → CommentResp) (attempt retries : Nat),
        (resp attempt).status ≠ 404 → respOk (resp attempt).status = false →
        postCommentRun resp attempt retries =
          ⟨Except.error ShareErr.failedToShare, 1, []⟩)
    ∧ (∀ (resp : Nat → CommentResp) (attempt retries : Nat),
        respOk (resp attempt).status = true →
        postCommentRun resp attempt retries = ⟨Except.ok (resp attempt).commentUrn, 1, []⟩) := by
  refine ⟨?_, ?_, by decide, ?_, ?_⟩
  · intro resp attempt retries
    induction retries generalizing attempt with
    | zero =>
      simp only [postCommentRun]
      split <;> simp
    | succ rr ih =>
      simp only [postCommentRun]
      split
      · simpa using Nat.succ_le_succ (ih (attempt + 1))
      · split <;> simp
  · intro resp h
    have := postCommentRun_always404 resp h 10 0
    rw [this]
    rfl
  · intro resp attempt retries hne hok
    have h404 : ((resp attempt).status == 404) = false := by simp [hne]
    cases retries with
    | zero => simp [postCommentRun, hok]
    | succ rr => simp [postCommentRun, h404, hok]
  · intro resp attempt retries hok
    have hne : (resp attempt).status ≠ 404 := by
      intro h
      rw [h] at hok
      simp [respOk] at hok
    have h404 : ((resp attempt).status == 404) = false := by simp [hne]
    cases retries with
    | zero => simp [postCommentRun, hok]
    | succ rr => simp [postCommentRun, h404, hok]

/-- Witness for C6 (amended): a concrete always-404 oracle exhausts all ten
retries with decreasing delays; a concrete 500 response fails at once; a
concrete 201 response returns its URN at once. -/
theorem postComment_retry_spec_witness :
    postCommentRun (fun _ => ⟨404, ""⟩) 0 10 =
      ⟨Except.error ShareErr.failedToShare, 11,
        [5001, 4501, 4001, 3501, 3001, 2501, 2001, 1501, 1001, 501]⟩
    ∧ postCommentRun (fun _ => ⟨500, ""⟩) 0 10 = ⟨Except.error ShareErr.failedToShare, 1, []⟩
    ∧ postCommentRun (fun _ => ⟨201, "urn:li:comment:1"⟩) 0 10 =
        ⟨Except.ok "urn:li:comment:1", 1, []⟩ := by
  refine ⟨postComment_retry_spec.2.1 _ (fun i => rfl), ?_, ?_⟩
  · exact postComment_retry_spec.2.2.2.1 (fun _ => ⟨500, ""⟩) 0 10 (by decide) (by decide)
  · exact postComment_retry_spec.2.2.2.2 (fun _ => ⟨201, "urn:li:comment:1"⟩) 0 10 (by decide)

/-- C7: when the finalize endpoint always answers non-2xx,
`finalizeVideoUpload` retries exactly 3 times (4 attempts) with backoff
`500 * remainingRetries + 1` (1501, 1001, 501 ms) and then fails with the
fatal finalize error; the first 2xx response stops the retrying and the call
returns success. -/
theorem finalizeVideoUpload_retry_spec :
    (∀ resp : Nat → Bool, (∀ i, resp i = false) →
        finalizeVideoUploadRun resp 0 3 =
          ⟨Except.error ShareErr.failedToShare, 4, [1501, 1001, 501]⟩)
    ∧ (∀ (resp : Nat → Bool) (k : Nat), k ≤ 3 → (∀ i, i < k → resp i = false) →
        resp k = true →
        (finalizeVideoUploadRun resp 0 3).result = Except.ok ()
        ∧ (finalizeVideoUploadRun resp 0 3).attempts = k + 1) := by
  constructor
  · intro resp h
    simp [finalizeVideoUploadRun, h 0, h 1, h 2, h 3]
  · intro resp k hk hlt htrue
    interval_cases k
    · simp [finalizeVideoUploadRun, htrue]
    · simp [finalizeVideoUploadRun, hlt 0 (by omega), htrue]
    · simp [finalizeVideoUploadRun, hlt 0 (by omega), hlt 1 (by omega), htrue]
    · simp [finalizeVideoUploadRun, hlt 0 (by omega), hlt 1 (by omega), hlt 2 (by omega), htrue]

/-- Witness for C7: a concrete always-failing endpoint exhausts exactly three
retries with delays 1501, 1001, 501 and fails; an endpoint that first
succeeds on the third attempt stops there with success. -/
theorem finalizeVideoUpload_retry_spec_witness :
    finalizeVideoUploadRun (fun _ => false) 0 3 =
      ⟨Except.error ShareErr.failedToShare, 4, [1501, 1001, 501]⟩
    ∧ (finalizeVideoUploadRun (fun i => i == 2) 0 3).result = Except.ok ()
    ∧ (finalizeVideoUploadRun (fun i => i == 2) 0 3).attempts = 3 := by
  refine ⟨finalizeVideoUpload_retry_spec.1 _ (fun i => rfl), ?_⟩
  have h := finalizeVideoUpload_retry_spec.2 (fun i => i == 2) 2 (by decide)
    (fun i hi => by interval_cases i <;> decide) (by decide)
  exact h

/-- C2: `getAccessToken` (the spec's `ensureValidToken`): a stored access
token is returned as-is with no refresh; when it is absent, exactly one
refresh is attempted with the stored refresh token — on success the new token
is persisted and the freshly persisted access token is returned, on failure
the run ends after that single refresh — and any token returned with zero
refresh attempts was read unexpired from the store. -/
theorem getAccessToken_spec (refreshFn : String → Option TokenResp) (now : Nat) (st : Kv) :
    (∀ (a : String) (fuel : Nat), kvGet now st.accessToken = some a → a ≠ "" →
        getAccessToken refreshFn now (fuel + 1) st = some ⟨Except.ok a, st, 0⟩)
    ∧ (∀ (r : String) (d : TokenResp) (fuel : Nat),
        truthy (kvGet now st.accessToken) = false →
        kvGet now st.refreshToken = some r → r ≠ "" →
        refreshFn r = some d → d.access_token ≠ "" → 0 < d.expires_in →
        getAccessToken refreshFn now (fuel + 2) st =
          some ⟨Except.ok d.access_token, setTokens now d st, 1⟩)
    ∧ (∀ (r : String) (fuel : Nat),
        truthy (kvGet now st.accessToken) = false →
        kvGet now st.refreshToken = some r → r ≠ "" →
        refreshFn r = none →
        getAccessToken refreshFn now (fuel + 1) st =
          some ⟨Except.error (TokenErr.expiredToken "Refresh token is expired"),
            clearTokens st, 1⟩)
    ∧ (∀ (fuel : Nat) (a : String) (st2 : Kv),
        getAccessToken refreshFn now fuel st = some ⟨Except.ok a, st2, 0⟩ →
        kvGet now st.accessToken = some a ∧ a ≠ "" ∧ st2 = st) := by
  refine ⟨?_, ?_, ?_, ?_⟩
  · intro a fuel hk ha
    have hta : truthy (some a) = true := by simp [truthy, ha]
    simp [getAccessToken, hk, hta]
  · intro r d fuel hacc href hr hfd hda hde
    have htrs : truthy (some r) = true := by simp [truthy, hr]
    have hacc2 : kvGet now (setTokens now d st).accessToken = some d.access_token := by
      rw [setTokens_accessToken]
      simp [kvGet, Nat.lt_add_of_pos_right hde]
    have htda : truthy (some d.access_token) = true := by simp [truthy, hda]
    simp [getAccessToken, hacc, href, htrs, hfd, hacc2, htda]
  · intro r fuel hacc href hr hfd
    have htrs : truthy (some r) = true := by simp [truthy, hr]
    simp [getAccessToken, hacc, href, htrs, hfd]
  · intro fuel a st2 hrun
    cases fuel with
    | zero => simp [getAccessToken] at hrun
    | succ f =>
      cases h1 : truthy (kvGet now st.accessToken) with
      | true =>
        obtain ⟨v, hv⟩ : ∃ v, kvGet now st.accessToken = some v := by
          cases hk : kvGet now st.accessToken with
          | none => rw [hk] at h1; simp [truthy] at h1
          | some v => exact ⟨v, rfl⟩
        have hvne : v ≠ "" := by
          rw [hv] at h1
          simpa [truthy] using h1
        have htv : truthy (some v) = true := by simp [truthy, hvne]
        simp [getAccessToken, hv, htv] at hrun
        obtain ⟨ha, hst⟩ := hrun
        subst ha
        subst hst
        exact ⟨hv, hvne, rfl⟩
      | false =>
        cases h2 : truthy (kvGet now st.refreshToken) with
        | false => simp [getAccessToken, h1, h2] at hrun
        | true =>
          cases hfd : refreshFn ((kvGet now st.refreshToken).getD "") with
          | none => simp [getAccessToken, h1, h2, hfd] at hrun
          | some d =>
            simp only [getAccessToken, h1, h2, hfd, Bool.false_eq_true, if_false,
              Bool.not_false, Bool.not_true, if_true] at hrun
            cases hin : getAccessToken refreshFn now f (setTokens now d st) with
            | none => rw [hin] at hrun; simp at hrun
            | some out => rw [hin] at hrun; simp at hrun

/-- Witness for C2 at concrete stores and oracles: a present token is
returned unchanged; an absent one triggers exactly one refresh that persists
and returns the fresh token; a failing refresh ends after one attempt with
`ExpiredTokenError` and a cleared store. -/
theorem getAccessToken_spec_witness :
    getAccessToken (fun _ => none) 5 3 ⟨some ("tok", some 9), some ("rt", none), []⟩
      = some ⟨Except.ok "tok", ⟨some ("tok", some 9), some ("rt", none), []⟩, 0⟩
    ∧ getAccessToken (fun r => if r == "rt" then some ⟨"newtok", 5000, some "rt2", some 1000⟩ else none)
        50 4 ⟨none, some ("rt", some 100), []⟩
      = some ⟨Except.ok "newtok",
          setTokens 50 ⟨"newtok", 5000, some "rt2", some 1000⟩ ⟨none, some ("rt", some 100), []⟩, 1⟩
    ∧ getAccessToken (fun _ => none) 50 4 ⟨none, some ("rt", some 100), []⟩
      = some ⟨Except.error (TokenErr.expiredToken "Refresh token is expired"),
          clearTokens ⟨none, some ("rt", some 100), []⟩, 1⟩ := by
  refine ⟨?_, ?_, ?_⟩
  · exact (getAccessToken_spec (fun _ => none) 5
      ⟨some ("tok", some 9), some ("rt", none), []⟩).1 "tok" 2 (by decide) (by decide)
  · exact (getAccessToken_spec _ 50 ⟨none, some ("rt", some 100), []⟩).2.1 "rt"
      ⟨"newtok", 5000, some "rt2", some 1000⟩ 2 (by decide) (by decide) (by decide)
      (by decide) (by decide) (by decide)
  · exact (getAccessToken_spec (fun _ => none) 50 ⟨none, some ("rt", some 100), []⟩).2.2.1 "rt"
      3 (by decide) (by decide) (by decide) rfl

theorem getAccessToken_error_absent (refreshFn : String → Option TokenResp) (now fuel : Nat)
    (st : Kv) (out : GetTokenOut) (e : TokenErr)
    (hwf : wellFormedKv st = true) (hprov : providerOk refreshFn)
    (hrun : getAccessToken refreshFn now fuel st = some out)
    (herr : out.result = Except.error e) :
    kvGet now out.store.accessToken = none ∧ kvGet now out.store.refreshToken = none := by
  obtain ⟨hwa, hwr⟩ := Bool.and_eq_true_iff.mp hwf
  cases fuel with
  | zero => simp [getAccessToken] at hrun
  | succ f =>
    cases h1 : truthy (kvGet now st.accessToken) with
    | true =>
      simp [getAccessToken, h1] at hrun
      rw [← hrun] at herr
      simp at herr
    | false =>
      cases h2 : truthy (kvGet now st.refreshToken) with
      | true =>
        cases hfd : refreshFn ((kvGet now st.refreshToken).getD "") with
        | none =>
          simp [getAccessToken, h1, h2, hfd] at hrun
          rw [← hrun]
          exact ⟨rfl, rfl⟩
        | some d =>
          obtain ⟨hda, hde⟩ := hprov _ d hfd
          have hacc2 : kvGet now (setTokens now d st).accessToken = some d.access_token := by
            rw [setTokens_accessToken]
            simp [kvGet, Nat.lt_add_of_pos_right hde]
          have htda : truthy (some d.access_token) = true := by simp [truthy, hda]
          cases f with
          | zero => simp [getAccessToken, h1, h2, hfd] at hrun
          | succ f2 =>
            simp [getAccessToken, h1, h2, hfd, hacc2, htda] at hrun
            rw [← hrun] at herr
            simp at herr
      | false =>
        simp [getAccessToken, h1, h2] at hrun
        rw [← hrun]
        refine ⟨?_, ?_⟩
        · exact kvGet_eq_none_of_not_truthy now st.accessToken hwa h1
        · exact kvGet_eq_none_of_not_truthy now st.refreshToken hwr h2

/-- C4: whenever `validateAccessToken` surfaces a terminal token error — an
`ExpiredTokenError` after a failed or impossible refresh, or a
`WrongTokenError` after an identity mismatch — both token keys read as absent
from the store at that moment (for stores holding no degenerate empty-string
token and provider-shaped refresh responses). -/
theorem validateAccessToken_terminal_errors_clear_tokens
    (refreshFn : String → Option TokenResp) (profileFn : String → Option (Option String))
    (allowed : String) (now fuel : Nat) (st st2 : Kv) (e : TokenErr)
    (hwf : wellFormedKv st = true) (hprov : providerOk refreshFn)
    (hrun : validateAccessToken refreshFn profileFn allowed now fuel st
      = some (Except.error e, st2))
    (hscope : (∃ m, e = TokenErr.expiredToken m) ∨ e = TokenErr.wrongToken none) :
    kvGet now st2.accessToken = none ∧ kvGet now st2.refreshToken = none := by
  unfold validateAccessToken at hrun
  cases hga : getAccessToken refreshFn now fuel st with
  | none => rw [hga] at hrun; simp at hrun
  | some out =>
    rw [hga] at hrun
    dsimp only at hrun
    cases hres : out.result with
    | error e0 =>
      rw [hres] at hrun
      dsimp only at hrun
      simp only [Option.some.injEq, Prod.mk.injEq, Except.error.injEq] at hrun
      obtain ⟨he, hst⟩ := hrun
      rw [← hst]
      exact getAccessToken_error_absent refreshFn now fuel st out e0 hwf hprov hga hres
    | ok tok =>
      rw [hres] at hrun
      dsimp only at hrun
      cases hpf : profileFn tok with
      | none =>
        rw [hpf] at hrun
        simp only [Option.some.injEq, Prod.mk.injEq, Except.error.injEq] at hrun
        rcases hscope with ⟨m, hm⟩ | hm <;> rw [hm] at hrun <;> simp at hrun
      | some idf =>
        rw [hpf] at hrun
        dsimp only at hrun
        split at hrun
        · simp only [Option.some.injEq, Prod.mk.injEq, Except.error.injEq] at hrun
          obtain ⟨he, hst⟩ := hrun
          rw [← hst]
          exact ⟨rfl, rfl⟩
        · simp at hrun

/-- Witness for C4: a concrete store whose token belongs to the wrong user
is left with both token keys absent after the surfaced `WrongTokenError`; a
concrete store with only a bad refresh token is left the same way after the
surfaced `ExpiredTokenError`. -/
theorem validateAccessToken_terminal_errors_clear_tokens_witness :
    (validateAccessToken (fun _ => none) (fun _ => some (some "bob")) "alice" 0 3
        ⟨some ("tok", none), some ("rt", none), []⟩
      = some (Except.error (TokenErr.wrongToken none), ⟨none, none, []⟩))
    ∧ kvGet 0 (none : Option KvEntry) = none
    ∧ (validateAccessToken (fun _ => none) (fun _ => some (some "alice")) "alice" 0 3
        ⟨none, some ("rt", none), []⟩
      = some (Except.error (TokenErr.expiredToken "Refresh token is expired"),
          ⟨none, none, []⟩)) := by
  refine ⟨by decide, ?_, by decide⟩
  exact (validateAccessToken_terminal_errors_clear_tokens (fun _ => none)
    (fun _ => some (some "bob")) "alice" 0 3 ⟨some ("tok", none), some ("rt", none), []⟩
    ⟨none, none, []⟩ (TokenErr.wrongToken none) (by decide)
    (fun r d h => by cases h) (by decide) (Or.inr rfl)).1

/-- The earlier `clients/Linkedin.ts` token getter deviates from the
spec's `ensureValidToken` contract (which `LinkedInController.getAccessToken`
implements): after a successful refresh that persists a fresh token, it still
returns the stale pre-refresh read (no value), and after a failed refresh it
surfaces `ExpiredTokenError` while leaving the stored refresh token in
place.  This documents why the token-lifecycle claims are settled against
the controller variant. -/
theorem clientAccessToken_variant_deviates :
    clientAccessToken (fun r => if r == "rt" then some ⟨"newtok", 5000, none, none⟩ else none)
        50 ⟨none, some ("rt", none), []⟩
      = (Except.ok none, setTokens 50 ⟨"newtok", 5000, none, none⟩ ⟨none, some ("rt", none), []⟩)
    ∧ clientAccessToken (fun _ => none) 50 ⟨none, some ("rt", none), []⟩
      = (Except.error (TokenErr.expiredToken "Expired token"), ⟨none, some ("rt", none), []⟩) := by
  constructor
  · decide
  · decide

end CloudSocials
